import Mathlib

/-!
# Verification development for `ginI18n.go`

A shallow embedding of the localisation service `GinI18nImpl`
(`src/ginI18n.go`) and theorems about its resolver cache, catalog loading and
message lookup.

Modelling conventions

* A Go pointer is an `Option`: `none` is the nil pointer.
* A Go `error` is an `Option Err`: `none` is the nil error.
* A Go `map[string]V` is an association list with unique keys (`GoMap`); the
  nil map and the empty map read alike, and the code only writes to a map it
  has just created.
* A call that can panic returns an `Outcome`; a method that mutates its
  receiver returns the receiver state it leaves behind.
* The external libraries (go-i18n, `path/filepath`) are not part of the
  repository.  Their data is modelled by records of what the service hands to
  them, and their behaviour is a parameter (`Lib`), so every theorem holds for
  every behaviour of the libraries.
* Calls to the two external collaborators a claim talks about (the catalog
  loader and the resolver) are recorded in explicit call lists.
-/

namespace I18n

/-! ## Go runtime values -/

/-- A Go error value, represented by its message. -/
abbrev Err := String

/-- A Go pointer; `none` is nil. -/
abbrev Ptr (α : Type) := Option α

/-- A Go byte slice. -/
abbrev Bytes := List Nat

/-- Result of a call that either returns or panics. -/
inductive Outcome (α : Type) where
  | ret (a : α)
  | panic (e : Err)
deriving DecidableEq

/-- The runtime panic raised by dereferencing a nil pointer. -/
def nilDeref : Err := "runtime error: invalid memory address or nil pointer dereference"

/-- The runtime panic raised by a failed type assertion. -/
def badAssert : Err := "interface conversion: interface is not *gin.Context"

/-! ## Go maps keyed by strings -/

/-- A `map[string]V`: association list whose keys are pairwise distinct. -/
abbrev GoMap (V : Type) := List (String × V)

/-- The comma-ok read `v, ok := m[k]`: `none` when the key is absent. -/
def GoMap.lookup {V : Type} : GoMap V → String → Option V
  | [], _ => none
  | (k1, v) :: rest, k => if k1 = k then some v else GoMap.lookup rest k

/-- The write `m[k] = v`: replaces the entry of `k` or adds one. -/
def GoMap.set {V : Type} : GoMap V → String → V → GoMap V
  | [], k, v => [(k, v)]
  | (k1, v1) :: rest, k, v => if k1 = k then (k, v) :: rest else (k1, v1) :: GoMap.set rest k v

/-- The key set of a map. -/
def GoMap.keys {V : Type} (m : GoMap V) : List String := m.map Prod.fst

/-- The plain read `m[k]` of a map of pointers: nil when the key is absent. -/
def GoMap.index {V : Type} (m : GoMap (Ptr V)) (k : String) : Ptr V :=
  match m.lookup k with
  | some v => v
  | none => none

/-! ## External data (golang.org/x/text/language, go-i18n, gin) -/

/-- A `language.Tag`, identified by its canonical string. -/
structure Tag where
  canonical : String
deriving DecidableEq

/-- The method `Tag.String()`. -/
def Tag.String (t : Tag) : String := t.canonical

/-- A `*gin.Context`, reduced to the request data a language handler reads
(headers, cookies, query values). -/
structure GinContext where
  values : List (String × String)
deriving DecidableEq

/-- A `context.Context` interface value, by dynamic type. -/
inductive Context where
  | gin (p : Ptr GinContext)
  | other

/-- The `i18n.UnmarshalFunc` a bundle registers for a file format. -/
abbrev UnmarshalFunc := Bytes → Except Err (List (String × String))

/-- An `i18n.Bundle`, recorded as what the service did to it: the default
language it was created with, the unmarshal functions registered, and the
message files parsed into it (path and bytes, in order). -/
structure Bundle where
  defaultLanguage : Tag
  unmarshalFuncs : List (String × UnmarshalFunc)
  messageFiles : List (String × Bytes)

/-- The constructor `i18n.NewBundle`. -/
def NewBundle (defaultLanguage : Tag) : Bundle :=
  { defaultLanguage := defaultLanguage, unmarshalFuncs := [], messageFiles := [] }

/-- The method `Bundle.RegisterUnmarshalFunc`. -/
def Bundle.RegisterUnmarshalFunc (b : Bundle) (format : String) (f : UnmarshalFunc) : Bundle :=
  { b with unmarshalFuncs := b.unmarshalFuncs ++ [(format, f)] }

/-- An `i18n.Localizer` (the resolver), recorded as the arguments
`i18n.NewLocalizer` received: the bundle and the ordered candidate languages. -/
structure Localizer where
  bundle : Ptr Bundle
  lngs : List String

/-- An `i18n.LocalizeConfig` (the structured request). A nil interface in
`TemplateData` or `PluralCount` is `none`. -/
structure LocalizeConfig where
  MessageID : String
  TemplateData : Option (List (String × String))
  PluralCount : Option Int
  DefaultMessage : Ptr String
deriving DecidableEq

/-- The composite literal of a `LocalizeConfig` that sets only `MessageID`: every other
field has its zero value. -/
def LocalizeConfig.ofMessageID (id : String) : LocalizeConfig :=
  { MessageID := id, TemplateData := none, PluralCount := none, DefaultMessage := none }

/-- The behaviour of the external libraries, left arbitrary.
* `filepathJoin` is `filepath.Join` on two elements;
* `parseError b buf path` is the error `b.ParseMessageFileBytes(buf, path)` returns
  (`none` for success);
* `Localize` is the method `Localizer.Localize`, on possibly nil receiver and
  argument. -/
structure Lib where
  filepathJoin : String → String → String
  parseError : Bundle → Bytes → String → Option Err
  Localize : Ptr Localizer → Ptr LocalizeConfig → Outcome (String × Option Err)

/-- The method `Bundle.ParseMessageFileBytes`: on success the file is merged into
the bundle, on error the bundle is as before. -/
def Bundle.ParseMessageFileBytes (lib : Lib) (b : Bundle) (buf : Bytes) (path : String) :
    Bundle × Option Err :=
  match lib.parseError b buf path with
  | some err => (b, some err)
  | none => ({ b with messageFiles := b.messageFiles ++ [(path, buf)] }, none)

/-! ## Declarations of the repository outside `ginI18n.go` -/

/-- Modelled from the spec: the type `GetLngHandler` is declared outside
`ginI18n.go`; the spec gives `ExtractLanguage` as a function from the request
context and the default language string to a language string. -/
abbrev GetLngHandler := Ptr GinContext → String → String

/-- Modelled from the spec: the struct `BundleCfg` and its `Loader` interface are
declared outside `ginI18n.go`; the fields are the options of the spec's
configuration table, and the loader maps a path to raw bytes or a load error
(`LoadMessage(path) ([]byte, error)`). -/
structure BundleCfg where
  DefaultLanguage : Tag
  FormatBundleFile : String
  AcceptLanguage : List Tag
  RootPath : String
  UnmarshalFunc : UnmarshalFunc
  Loader : String → Bytes × Option Err

/-! ## The service -/

/-- The struct `GinI18nImpl`. -/
structure GinI18nImpl where
  bundle : Ptr Bundle
  currentContext : Ptr GinContext
  localizerByLng : GoMap (Ptr Localizer)
  defaultLanguage : Tag
  getLngHandler : Option GetLngHandler

/-- The `interface{}` parameter of a lookup, by dynamic type: a string, a
`*i18n.LocalizeConfig` (possibly a nil pointer), or a value of any other type
(the nil interface included), which the code only formats with `%v`. -/
inductive Param where
  | str (s : String)
  | localizeConfig (p : Ptr LocalizeConfig)
  | other (fmtV : String)

/-- A recorded call of `Localizer.Localize`. -/
structure LocalizeCall where
  localizer : Ptr Localizer
  config : Ptr LocalizeConfig

/-- What a lookup leaves behind: its outcome and the `Localize` calls it made. -/
structure Lookup where
  result : Outcome (String × Option Err)
  localizeCalls : List LocalizeCall

/-- What a run of a loading method leaves behind: the receiver state, the paths
passed to `Loader.LoadMessage` in call order, and the panic value if it
panicked. -/
structure Run where
  svc : GinI18nImpl
  requested : List String
  panicked : Option Err

/-- What `loadMessageFile` leaves behind: as `Run`, with the returned error. -/
structure FileRun where
  svc : GinI18nImpl
  requested : List String
  result : Outcome (Option Err)

/-- The method `newLocalizer`. -/
def newLocalizer (i : GinI18nImpl) (lng : String) : Ptr Localizer :=
  let lngDefault := i.defaultLanguage.String
  let lngs := [lng]
  let lngs := if lng ≠ lngDefault then lngs ++ [lngDefault] else lngs
  some { bundle := i.bundle, lngs := lngs }

/-- The body of the loop of `setLocalizerByLng`, for one accepted language. -/
def setLocalizerByLng.step (i : GinI18nImpl) (lng : Tag) : GinI18nImpl :=
  let lngStr := lng.String
  { i with localizerByLng := i.localizerByLng.set lngStr (newLocalizer i lngStr) }

/-- The method `setLocalizerByLng`. -/
def setLocalizerByLng (i : GinI18nImpl) (acceptLanguage : List Tag) : GinI18nImpl :=
  let i := { i with localizerByLng := [] }
  let i := acceptLanguage.foldl setLocalizerByLng.step i
  let defaultLng := i.defaultLanguage.String
  match i.localizerByLng.lookup defaultLng with
  | some _ => i
  | none => { i with localizerByLng := i.localizerByLng.set defaultLng (newLocalizer i defaultLng) }

/-- The method `getLocalizerByLng`. -/
def getLocalizerByLng (i : GinI18nImpl) (lng : String) : Ptr Localizer :=
  match i.localizerByLng.lookup lng with
  | some localizer => localizer
  | none => i.localizerByLng.index i.defaultLanguage.String

/-- The method `getLocalizeConfig`; the pair is the Go result
`(*i18n.LocalizeConfig, error)`. -/
def getLocalizeConfig (param : Param) : Ptr LocalizeConfig × Option Err :=
  match param with
  | .str paramValue => (some (LocalizeConfig.ofMessageID paramValue), none)
  | .localizeConfig paramValue => (paramValue, none)
  | .other fmtV => (none, some ("un supported localize param: " ++ fmtV))

/-- The first statement of `GetMessage`: the language extracted for the request. -/
def GetMessage.lng (i : GinI18nImpl) : Outcome String :=
  match i.getLngHandler with
  | none => .panic nilDeref
  | some handler => .ret (handler i.currentContext i.defaultLanguage.String)

/-- The method `GetMessage`. -/
def GetMessage (lib : Lib) (i : GinI18nImpl) (param : Param) : Lookup :=
  match GetMessage.lng i with
  | .panic e => ⟨.panic e, []⟩
  | .ret lng =>
    let localizer := getLocalizerByLng i lng
    match getLocalizeConfig param with
    | (_, some err) => ⟨.ret ("", some err), []⟩
    | (localizeConfig, none) =>
      let calls := [LocalizeCall.mk localizer localizeConfig]
      match lib.Localize localizer localizeConfig with
      | .panic e => ⟨.panic e, calls⟩
      | .ret (_, some err) => ⟨.ret ("", some err), calls⟩
      | .ret (message, none) => ⟨.ret (message, none), calls⟩

/-- The method `MustGetMessage`. -/
def MustGetMessage (lib : Lib) (i : GinI18nImpl) (param : Param) : Outcome String :=
  match (GetMessage lib i param).result with
  | .panic e => .panic e
  | .ret (message, _) => .ret message

/-- The method `SetCurrentContext`; a failed type assertion panics before the
assignment. -/
def SetCurrentContext (i : GinI18nImpl) (ctx : Context) : Outcome GinI18nImpl :=
  match ctx with
  | .gin p => .ret { i with currentContext := p }
  | .other => .panic badAssert

/-- The method `SetGetLngHandler`. -/
def SetGetLngHandler (i : GinI18nImpl) (handler : Option GetLngHandler) : GinI18nImpl :=
  { i with getLngHandler := handler }

/-- The method `loadMessageFile`. -/
def loadMessageFile (lib : Lib) (i : GinI18nImpl) (config : BundleCfg) (path : String) : FileRun :=
  match config.Loader path with
  | (_, some err) => ⟨i, [path], .ret (some err)⟩
  | (buf, none) =>
    match i.bundle with
    | none => ⟨i, [path], .panic nilDeref⟩
    | some b =>
      match b.ParseMessageFileBytes lib buf path with
      | (b, some err) => ⟨{ i with bundle := some b }, [path], .ret (some err)⟩
      | (b, none) => ⟨{ i with bundle := some b }, [path], .ret none⟩

/-- The catalog path `loadMessageFiles` composes for a language. -/
def loadMessageFiles.path (lib : Lib) (config : BundleCfg) (lng : Tag) : String :=
  lib.filepathJoin config.RootPath lng.String ++ "." ++ config.FormatBundleFile

/-- The loop of `loadMessageFiles` over the languages still to load;
`requested` is the list of paths requested so far. -/
def loadMessageFiles.loop (lib : Lib) (config : BundleCfg) :
    List Tag → GinI18nImpl → List String → Run
  | [], i, requested => ⟨i, requested, none⟩
  | lng :: rest, i, requested =>
    let path := loadMessageFiles.path lib config lng
    let r := loadMessageFile lib i config path
    match r.result with
    | .ret none => loadMessageFiles.loop lib config rest r.svc (requested ++ r.requested)
    | .ret (some err) => ⟨r.svc, requested ++ r.requested, some err⟩
    | .panic e => ⟨r.svc, requested ++ r.requested, some e⟩

/-- The method `loadMessageFiles`. -/
def loadMessageFiles (lib : Lib) (i : GinI18nImpl) (config : BundleCfg) : Run :=
  loadMessageFiles.loop lib config config.AcceptLanguage i []

/-- The first two statements of `SetBundle`: the fresh bundle with the unmarshal
function of the configured format registered. -/
def SetBundle.bundle (cfg : BundleCfg) : Bundle :=
  let bundle := NewBundle cfg.DefaultLanguage
  bundle.RegisterUnmarshalFunc cfg.FormatBundleFile cfg.UnmarshalFunc

/-- The method `SetBundle`. -/
def SetBundle (lib : Lib) (i : GinI18nImpl) (cfg : Ptr BundleCfg) : Run :=
  match cfg with
  | none => ⟨i, [], some nilDeref⟩
  | some cfg =>
    let bundle := SetBundle.bundle cfg
    let i := { i with bundle := some bundle, defaultLanguage := cfg.DefaultLanguage }
    let r := loadMessageFiles lib i cfg
    match r.panicked with
    | some e => ⟨r.svc, r.requested, some e⟩
    | none => ⟨setLocalizerByLng r.svc cfg.AcceptLanguage, r.requested, none⟩

/-! ## Catalog loading, as the specification words it -/

/-- The error the catalog of language `lng` yields on bundle `b`: the load error when
the loader cannot read the catalog, otherwise the parse error of the bytes
read, otherwise none. -/
def catalogError (lib : Lib) (config : BundleCfg) (b : Bundle) (lng : Tag) : Option Err :=
  match config.Loader (loadMessageFiles.path lib config lng) with
  | (_, some err) => some err
  | (buf, none) => lib.parseError b buf (loadMessageFiles.path lib config lng)

/-- The bundle `b` with the catalogs of the languages `lngs` merged in, in order. -/
def bundleWith (lib : Lib) (config : BundleCfg) (b : Bundle) (lngs : List Tag) : Bundle :=
  { b with messageFiles := b.messageFiles ++ lngs.map (fun lng =>
      (loadMessageFiles.path lib config lng,
        (config.Loader (loadMessageFiles.path lib config lng)).1)) }

/-- Every language of `lngs` loads and parses, each one on the bundle holding the
catalogs of the languages before it. -/
def AllLoad (lib : Lib) (config : BundleCfg) (b : Bundle) (lngs : List Tag) : Prop :=
  ∀ (p1 : List Tag) (l : Tag) (p2 : List Tag), lngs = p1 ++ l :: p2 →
    catalogError lib config (bundleWith lib config b p1) l = none

/-- The language `lng`, standing after `pre` and before `post` in `lngs`, is the first one
whose catalog fails to load or parse, with error `e`. -/
def FirstFailure (lib : Lib) (config : BundleCfg) (b : Bundle) (lngs pre : List Tag)
    (lng : Tag) (post : List Tag) (e : Err) : Prop :=
  lngs = pre ++ lng :: post ∧ AllLoad lib config b pre ∧
    catalogError lib config (bundleWith lib config b pre) lng = some e

/-! ## A concrete configuration -/

/-- A library behaviour for concrete runs: paths are joined with a slash, an empty
file fails to parse, and a message is found in the first candidate language
whose catalog file was parsed into the bundle. -/
def exLib : Lib where
  filepathJoin := fun a b => a ++ "/" ++ b
  parseError := fun _ buf _ => if buf = [] then some "parse error" else none
  Localize := fun l c =>
    match l, c with
    | some l, some c =>
      match l.bundle with
      | none => .panic nilDeref
      | some b =>
        match l.lngs.find?
            (fun lng => b.messageFiles.any (fun f => f.1 == "locales/" ++ lng ++ ".yaml")) with
        | some lng => .ret (lng ++ ":" ++ c.MessageID, none)
        | none => .ret ("", some ("message not found: " ++ c.MessageID))
    | _, _ => .panic nilDeref

/-- A loader with catalogs for German and English, an empty (unparsable) file for
French, and nothing else. -/
def exLoader (path : String) : Bytes × Option Err :=
  if path = "locales/de.yaml" then ([1], none)
  else if path = "locales/en.yaml" then ([2], none)
  else if path = "locales/fr.yaml" then ([], none)
  else ([], some "open: no such file")

/-- A language handler reading the request value `lng`. -/
def exHandler : GetLngHandler := fun ctx defaultLng =>
  match ctx with
  | none => defaultLng
  | some c =>
    match GoMap.lookup c.values "lng" with
    | some v => v
    | none => defaultLng

/-- A configuration accepting German only, with English as default. -/
def exCfg : BundleCfg where
  DefaultLanguage := ⟨"en"⟩
  FormatBundleFile := "yaml"
  AcceptLanguage := [⟨"de"⟩]
  RootPath := "locales"
  UnmarshalFunc := fun _ => .ok []
  Loader := exLoader

/-- A fresh service with the language handler installed. -/
def exSvc : GinI18nImpl where
  bundle := none
  currentContext := none
  localizerByLng := []
  defaultLanguage := ⟨"und"⟩
  getLngHandler := some exHandler

/-- The fresh service with English as default language. -/
def exSvcEn : GinI18nImpl := { exSvc with defaultLanguage := ⟨"en"⟩ }

/-- A request context asking for the given language. -/
def exCtx (lng : String) : GinContext := ⟨[("lng", lng)]⟩

/-- The service after `SetBundle` with the concrete configuration. -/
def exInit : GinI18nImpl := (SetBundle exLib exSvc (some exCfg)).svc

/-- A configuration accepting German, French and English: the French catalog does
not parse. -/
def exCfgFr : BundleCfg := { exCfg with AcceptLanguage := [⟨"de"⟩, ⟨"fr"⟩, ⟨"en"⟩] }

/-! ## Maps: reads after writes -/

theorem GoMap.lookup_set {V : Type} (m : GoMap V) (k k1 : String) (v : V) :
    (m.set k v).lookup k1 = if k = k1 then some v else m.lookup k1 := by
  induction m with
  | nil => simp [GoMap.set, GoMap.lookup]
  | cons e rest ih =>
    obtain ⟨ke, ve⟩ := e
    by_cases hke : ke = k
    · subst hke
      by_cases h : ke = k1
      · simp [GoMap.set, GoMap.lookup, h]
      · simp [GoMap.set, GoMap.lookup, h]
    · by_cases h : ke = k1
      · subst h
        have hke2 : ¬ k = ke := fun h => hke h.symm
        simp [GoMap.set, GoMap.lookup, hke, hke2]
      · simp [GoMap.set, GoMap.lookup, hke, h, ih]

theorem GoMap.mem_keys_iff {V : Type} (m : GoMap V) (k : String) :
    k ∈ m.keys ↔ (m.lookup k).isSome = true := by
  induction m with
  | nil => simp [GoMap.keys, GoMap.lookup]
  | cons e rest ih =>
    obtain ⟨ke, ve⟩ := e
    by_cases h : ke = k
    · simp [GoMap.keys, GoMap.lookup, h]
    · have h2 : ¬ k = ke := fun h3 => h h3.symm
      simp only [GoMap.keys, List.map_cons, List.mem_cons, h2, false_or, GoMap.lookup, h,
        if_false]
      exact ih

/-! ## The resolver cache built by `setLocalizerByLng` -/

theorem setLocalizerByLng.foldl_fields (acc : List Tag) (i : GinI18nImpl) :
    (acc.foldl setLocalizerByLng.step i).bundle = i.bundle ∧
    (acc.foldl setLocalizerByLng.step i).defaultLanguage = i.defaultLanguage ∧
    (acc.foldl setLocalizerByLng.step i).currentContext = i.currentContext ∧
    (acc.foldl setLocalizerByLng.step i).getLngHandler = i.getLngHandler := by
  induction acc generalizing i with
  | nil => simp
  | cons a rest ih =>
    simp only [List.foldl_cons]
    have := ih (setLocalizerByLng.step i a)
    simpa [setLocalizerByLng.step] using this

theorem newLocalizer_congr (i j : GinI18nImpl) (k : String) (hb : j.bundle = i.bundle)
    (hd : j.defaultLanguage = i.defaultLanguage) : newLocalizer j k = newLocalizer i k := by
  simp [newLocalizer, hb, hd]

theorem setLocalizerByLng.foldl_lookup (acc : List Tag) (i : GinI18nImpl) (k : String) :
    (acc.foldl setLocalizerByLng.step i).localizerByLng.lookup k =
      if k ∈ acc.map Tag.String then some (newLocalizer i k) else i.localizerByLng.lookup k := by
  induction acc generalizing i with
  | nil => simp
  | cons a rest ih =>
    simp only [List.foldl_cons]
    rw [ih (setLocalizerByLng.step i a)]
    have hn : newLocalizer (setLocalizerByLng.step i a) k = newLocalizer i k :=
      newLocalizer_congr _ _ _ rfl rfl
    rw [hn]
    by_cases hr : k ∈ rest.map Tag.String
    · simp [hr]
    · by_cases ha : a.String = k
      · simp [hr, setLocalizerByLng.step, GoMap.lookup_set, ha]
      · have ha2 : ¬ k = a.String := fun h => ha h.symm
        simp [hr, setLocalizerByLng.step, GoMap.lookup_set, ha, ha2]

theorem setLocalizerByLng_eq (i : GinI18nImpl) (acc : List Tag) :
    setLocalizerByLng i acc =
      (let j := acc.foldl setLocalizerByLng.step { i with localizerByLng := [] }
       match j.localizerByLng.lookup j.defaultLanguage.String with
       | some _ => j
       | none => setLocalizerByLng.step j j.defaultLanguage) := rfl

theorem setLocalizerByLng_fields (i : GinI18nImpl) (acc : List Tag) :
    (setLocalizerByLng i acc).bundle = i.bundle ∧
    (setLocalizerByLng i acc).defaultLanguage = i.defaultLanguage ∧
    (setLocalizerByLng i acc).currentContext = i.currentContext ∧
    (setLocalizerByLng i acc).getLngHandler = i.getLngHandler := by
  rw [setLocalizerByLng_eq]
  have hf := setLocalizerByLng.foldl_fields acc { i with localizerByLng := [] }
  simp only at hf ⊢
  split
  · exact hf
  · simpa [setLocalizerByLng.step] using hf

/-- Reads of the cache built by `setLocalizerByLng`: a key is present exactly when it
is the string of an accepted language or of the default language, and it then
holds the resolver `newLocalizer` makes for it. -/
theorem setLocalizerByLng_lookup (i : GinI18nImpl) (acc : List Tag) (k : String) :
    (setLocalizerByLng i acc).localizerByLng.lookup k =
      if k ∈ acc.map Tag.String ∨ k = i.defaultLanguage.String then some (newLocalizer i k)
      else none := by
  rw [setLocalizerByLng_eq]
  have hf := setLocalizerByLng.foldl_fields acc { i with localizerByLng := [] }
  have hl := setLocalizerByLng.foldl_lookup acc { i with localizerByLng := [] }
  simp only at hf hl ⊢
  have hn : ∀ k, newLocalizer { i with localizerByLng := [] } k = newLocalizer i k :=
    fun k => newLocalizer_congr _ _ _ rfl rfl
  split
  · rename_i v hv
    rw [hl, hn]
    rw [hl, hf.2.1, hn] at hv
    by_cases hk : k ∈ acc.map Tag.String
    · simp [hk]
    · by_cases hd : k = i.defaultLanguage.String
      · subst hd
        simp only [hk, if_false, GoMap.lookup] at hv
        exact absurd hv (by simp)
      · simp [hk, hd, GoMap.lookup]
  · rename_i hv
    rw [hl, hf.2.1] at hv
    have hdn : i.defaultLanguage.String ∉ acc.map Tag.String := by
      intro hmem
      simp [hmem] at hv
    simp only [setLocalizerByLng.step, GoMap.lookup_set, hf.2.1]
    have hn2 : newLocalizer (List.foldl setLocalizerByLng.step { i with localizerByLng := [] } acc)
        i.defaultLanguage.String = newLocalizer i i.defaultLanguage.String :=
      newLocalizer_congr _ _ _ hf.1 hf.2.1
    by_cases hd : i.defaultLanguage.String = k
    · subst hd
      simp [hn2]
    · have hd2 : ¬ k = i.defaultLanguage.String := fun h => hd h.symm
      rw [hl, hn]
      by_cases hk : k ∈ acc.map Tag.String
      · simp [hk, hd]
      · simp [hk, hd, hd2, GoMap.lookup]

theorem newLocalizer_eq (i : GinI18nImpl) (k : String) :
    newLocalizer i k =
      some ⟨i.bundle, if k = i.defaultLanguage.String then [k] else [k, i.defaultLanguage.String]⟩ := by
  by_cases h : k = i.defaultLanguage.String
  · simp [newLocalizer, h]
  · simp [newLocalizer, h]

/-! ## C1 – C3: the resolver cache -/

/-- C1: after `setLocalizerByLng`, run on any service with any accepted languages and
any default language, `getLocalizerByLng` returns a non-nil resolver for every
input string. -/
theorem getLocalizerByLng_total (i : GinI18nImpl) (acceptLanguage : List Tag) (s : String) :
    ∃ localizer : Localizer,
      getLocalizerByLng (setLocalizerByLng i acceptLanguage) s = some localizer := by
  have hd := (setLocalizerByLng_fields i acceptLanguage).2.1
  unfold getLocalizerByLng GoMap.index
  rw [setLocalizerByLng_lookup, setLocalizerByLng_lookup, hd]
  by_cases hs : s ∈ acceptLanguage.map Tag.String ∨ s = i.defaultLanguage.String
  · rw [if_pos hs, newLocalizer_eq]
    exact ⟨_, rfl⟩
  · rw [if_neg hs, if_pos (Or.inr rfl), newLocalizer_eq]
    exact ⟨_, rfl⟩

/-- C2: after `setLocalizerByLng`, a string that is the canonical string of an accepted
language or of the default language gets the resolver cached under that very
string, whose first candidate is the string; every other string is absent
from the cache and gets the resolver cached under the default language. -/
theorem getLocalizerByLng_exact_or_default (i : GinI18nImpl) (acceptLanguage : List Tag)
    (s : String) :
    (s ∈ acceptLanguage.map Tag.String ∨ s = i.defaultLanguage.String →
      ∃ localizer : Localizer,
        (setLocalizerByLng i acceptLanguage).localizerByLng.lookup s = some (some localizer) ∧
        getLocalizerByLng (setLocalizerByLng i acceptLanguage) s = some localizer ∧
        localizer.lngs.head? = some s) ∧
    (¬ (s ∈ acceptLanguage.map Tag.String ∨ s = i.defaultLanguage.String) →
      ∃ localizer : Localizer,
        (setLocalizerByLng i acceptLanguage).localizerByLng.lookup s = none ∧
        (setLocalizerByLng i acceptLanguage).localizerByLng.lookup
          (setLocalizerByLng i acceptLanguage).defaultLanguage.String = some (some localizer) ∧
        getLocalizerByLng (setLocalizerByLng i acceptLanguage) s = some localizer) := by
  have hd := (setLocalizerByLng_fields i acceptLanguage).2.1
  constructor
  · intro hs
    unfold getLocalizerByLng
    rw [setLocalizerByLng_lookup, if_pos hs, newLocalizer_eq]
    refine ⟨_, rfl, rfl, ?_⟩
    by_cases hsd : s = i.defaultLanguage.String
    · simp [hsd]
    · simp [hsd]
  · intro hs
    unfold getLocalizerByLng GoMap.index
    rw [setLocalizerByLng_lookup, setLocalizerByLng_lookup, hd, if_neg hs,
      if_pos (Or.inr rfl), newLocalizer_eq]
    exact ⟨_, rfl, rfl, rfl⟩

/-- Witness of C2 on the cache for accepted German and default English: `de` is served
by its own resolver, the garbage string `%%` by the default one. -/
theorem getLocalizerByLng_exact_or_default_witness :
    (∃ localizer : Localizer,
      (setLocalizerByLng exSvcEn [⟨"de"⟩]).localizerByLng.lookup "de" = some (some localizer) ∧
      getLocalizerByLng (setLocalizerByLng exSvcEn [⟨"de"⟩]) "de" = some localizer ∧
      localizer.lngs.head? = some "de") ∧
    (∃ localizer : Localizer,
      (setLocalizerByLng exSvcEn [⟨"de"⟩]).localizerByLng.lookup "%%" = none ∧
      (setLocalizerByLng exSvcEn [⟨"de"⟩]).localizerByLng.lookup
        (setLocalizerByLng exSvcEn [⟨"de"⟩]).defaultLanguage.String = some (some localizer) ∧
      getLocalizerByLng (setLocalizerByLng exSvcEn [⟨"de"⟩]) "%%" = some localizer) :=
  ⟨(getLocalizerByLng_exact_or_default exSvcEn [⟨"de"⟩] "de").1 (by decide),
   (getLocalizerByLng_exact_or_default exSvcEn [⟨"de"⟩] "%%").2 (by decide)⟩

/-- C3: the cache `setLocalizerByLng` builds has as keys exactly the strings of the
accepted languages and of the default language; the resolver under a key `t`
has the candidates `[t, default]` when `t` is not the default and `[default]`
when it is, so `t` comes first, the default last, without duplicates and with
at most 2 entries. -/
theorem setLocalizerByLng_cache (i : GinI18nImpl) (acceptLanguage : List Tag) (t : String) :
    (t ∈ (setLocalizerByLng i acceptLanguage).localizerByLng.keys ↔
      t ∈ acceptLanguage.map Tag.String ∨ t = i.defaultLanguage.String) ∧
    (t ∈ (setLocalizerByLng i acceptLanguage).localizerByLng.keys →
      ∃ localizer : Localizer,
        (setLocalizerByLng i acceptLanguage).localizerByLng.lookup t = some (some localizer) ∧
        localizer.bundle = i.bundle ∧
        localizer.lngs =
          (if t = i.defaultLanguage.String then [i.defaultLanguage.String]
           else [t, i.defaultLanguage.String]) ∧
        localizer.lngs.head? = some t ∧
        localizer.lngs.getLast? = some i.defaultLanguage.String ∧
        localizer.lngs.Nodup ∧
        localizer.lngs.length ≤ 2) := by
  have hkeys : t ∈ (setLocalizerByLng i acceptLanguage).localizerByLng.keys ↔
      t ∈ acceptLanguage.map Tag.String ∨ t = i.defaultLanguage.String := by
    rw [GoMap.mem_keys_iff, setLocalizerByLng_lookup]
    by_cases hs : t ∈ acceptLanguage.map Tag.String ∨ t = i.defaultLanguage.String
    · simp [hs]
    · simp [hs]
  refine ⟨hkeys, fun hmem => ?_⟩
  have hs := hkeys.1 hmem
  rw [setLocalizerByLng_lookup, if_pos hs, newLocalizer_eq]
  refine ⟨_, rfl, rfl, ?_⟩
  by_cases hsd : t = i.defaultLanguage.String
  · simp [hsd]
  · simp [hsd]

/-- Witness of C3: in the cache for accepted German and default English the key `de`
is present, with candidates `de` then `en`. -/
theorem setLocalizerByLng_cache_witness :
    ∃ localizer : Localizer,
      (setLocalizerByLng exSvcEn [⟨"de"⟩]).localizerByLng.lookup "de" = some (some localizer) ∧
      localizer.bundle = exSvcEn.bundle ∧
      localizer.lngs =
        (if "de" = exSvcEn.defaultLanguage.String then [exSvcEn.defaultLanguage.String]
         else ["de", exSvcEn.defaultLanguage.String]) ∧
      localizer.lngs.head? = some "de" ∧
      localizer.lngs.getLast? = some exSvcEn.defaultLanguage.String ∧
      localizer.lngs.Nodup ∧
      localizer.lngs.length ≤ 2 :=
  (setLocalizerByLng_cache exSvcEn [⟨"de"⟩] "de").2 (by decide)

/-! ## C5, C10: the lookup parameter -/

/-- C5: `getLocalizeConfig` turns a bare identifier `s` into a request with message id
`s`, no template data and no plural count, without error; it returns a
structured request unchanged; for a parameter of any other shape it returns
no request and an error, and `GetMessage` (on a service with its language
handler installed) then returns the empty string with that error and makes
no `Localize` call. -/
theorem getLocalizeConfig_two_cases (lib : Lib) (i : GinI18nImpl) (handler : GetLngHandler)
    (hh : i.getLngHandler = some handler) :
    (∀ s : String, ∃ c : LocalizeConfig,
      getLocalizeConfig (.str s) = (some c, none) ∧
      c.MessageID = s ∧ c.TemplateData = none ∧ c.PluralCount = none) ∧
    (∀ r : Ptr LocalizeConfig, getLocalizeConfig (.localizeConfig r) = (r, none)) ∧
    (∀ v : String, ∃ err : Err,
      getLocalizeConfig (.other v) = (none, some err) ∧
      (GetMessage lib i (.other v)).result = .ret ("", some err) ∧
      (GetMessage lib i (.other v)).localizeCalls = []) := by
  refine ⟨fun s => ⟨_, rfl, rfl, rfl, rfl⟩, fun r => rfl, fun v => ⟨_, rfl, ?_, ?_⟩⟩
  · simp [GetMessage, GetMessage.lng, hh, getLocalizeConfig]
  · simp [GetMessage, GetMessage.lng, hh, getLocalizeConfig]

/-- Witness of C5 on the concrete service, whose language handler is installed. -/
theorem getLocalizeConfig_two_cases_witness :
    exInit.getLngHandler = some exHandler ∧
    (∃ err : Err,
      getLocalizeConfig (.other "42") = (none, some err) ∧
      (GetMessage exLib exInit (.other "42")).result = .ret ("", some err) ∧
      (GetMessage exLib exInit (.other "42")).localizeCalls = []) :=
  ⟨rfl, (getLocalizeConfig_two_cases exLib exInit exHandler rfl).2.2 "42"⟩

/-- C10, as stated, fails: for a structured-request parameter that is a nil pointer
`getLocalizeConfig` returns no error and a nil request, and `GetMessage` hands
that nil request to the resolver. -/
theorem getLocalizeConfig_nil_request :
    getLocalizeConfig (.localizeConfig none) = (none, none) ∧
    (GetMessage exLib exInit (.localizeConfig none)).localizeCalls.map LocalizeCall.config
      = [none] := by
  constructor
  · rfl
  · rfl

/-- C10, amended: for every parameter other than a nil structured-request pointer,
a request returned without error is non-nil, and every `Localize` call
`GetMessage` makes carries a non-nil request. -/
theorem getLocalizeConfig_defined (lib : Lib) (i : GinI18nImpl) (param : Param)
    (hp : param ≠ .localizeConfig none) :
    (∀ r : Ptr LocalizeConfig, getLocalizeConfig param = (r, none) → ∃ c, r = some c) ∧
    (∀ call ∈ (GetMessage lib i param).localizeCalls, ∃ c, call.config = some c) := by
  have h1 : ∀ r : Ptr LocalizeConfig, getLocalizeConfig param = (r, none) → ∃ c, r = some c := by
    intro r hr
    cases param with
    | str s =>
      simp only [getLocalizeConfig, Prod.mk.injEq] at hr
      exact ⟨_, hr.1.symm⟩
    | localizeConfig q =>
      cases q with
      | none => exact absurd rfl hp
      | some c =>
        simp only [getLocalizeConfig, Prod.mk.injEq] at hr
        exact ⟨c, hr.1.symm⟩
    | other v => simp [getLocalizeConfig] at hr
  refine ⟨h1, ?_⟩
  intro call hcall
  unfold GetMessage at hcall
  cases hl : GetMessage.lng i with
  | panic e => simp [hl] at hcall
  | ret lng =>
    rw [hl] at hcall
    simp only at hcall
    rcases hg : getLocalizeConfig param with ⟨r, e⟩
    rw [hg] at hcall
    cases e with
    | some err => simp at hcall
    | none =>
      obtain ⟨c, hc⟩ := h1 r hg
      simp only at hcall
      cases hloc : lib.Localize (getLocalizerByLng i lng) r with
      | panic e =>
        rw [hloc] at hcall
        simp only [List.mem_singleton] at hcall
        exact ⟨c, by rw [hcall]; exact hc⟩
      | ret a =>
        obtain ⟨m, e⟩ := a
        rw [hloc] at hcall
        cases e with
        | none =>
          simp only [List.mem_singleton] at hcall
          exact ⟨c, by rw [hcall]; exact hc⟩
        | some err =>
          simp only [List.mem_singleton] at hcall
          exact ⟨c, by rw [hcall]; exact hc⟩

/-- Witness of C10 amended, on a bare identifier. -/
theorem getLocalizeConfig_defined_witness :
    (∀ r : Ptr LocalizeConfig, getLocalizeConfig (.str "hello") = (r, none) → ∃ c, r = some c) ∧
    (∀ call ∈ (GetMessage exLib exInit (.str "hello")).localizeCalls,
      ∃ c, call.config = some c) :=
  getLocalizeConfig_defined exLib exInit (.str "hello") (by simp)

/-! ## C8: the convenience form -/

/-- Every lookup that returns an error returns the empty string with it. -/
theorem GetMessage_error_empty (lib : Lib) (i : GinI18nImpl) (param : Param) (m : String)
    (e : Err) (h : (GetMessage lib i param).result = .ret (m, some e)) : m = "" := by
  unfold GetMessage at h
  cases hl : GetMessage.lng i with
  | panic e1 => simp [hl] at h
  | ret lng =>
    rw [hl] at h
    simp only at h
    rcases hg : getLocalizeConfig param with ⟨r, e1⟩
    rw [hg] at h
    cases e1 with
    | some err =>
      simp only [Outcome.ret.injEq, Prod.mk.injEq] at h
      exact h.1.symm
    | none =>
      simp only at h
      cases hloc : lib.Localize (getLocalizerByLng i lng) r with
      | panic e2 => simp [hloc] at h
      | ret a =>
        obtain ⟨m1, e2⟩ := a
        rw [hloc] at h
        cases e2 with
        | none => simp at h
        | some err =>
          simp only [Outcome.ret.injEq, Prod.mk.injEq] at h
          exact h.1.symm

/-- C8: `MustGetMessage` returns the message of `GetMessage` when `GetMessage` returns no
error, and the empty string whenever `GetMessage` returns an error: for a
parameter of unsupported shape, and for any error the resolver reports
(message not found, template error). -/
theorem MustGetMessage_collapses (lib : Lib) (i : GinI18nImpl) (param : Param) :
    (∀ m : String, (GetMessage lib i param).result = .ret (m, none) →
      MustGetMessage lib i param = .ret m) ∧
    (∀ (m : String) (e : Err), (GetMessage lib i param).result = .ret (m, some e) →
      MustGetMessage lib i param = .ret "") ∧
    (∀ (handler : GetLngHandler) (v : String), i.getLngHandler = some handler →
      param = .other v → MustGetMessage lib i param = .ret "") ∧
    (∀ (handler : GetLngHandler) (r : Ptr LocalizeConfig) (m : String) (e : Err),
      i.getLngHandler = some handler →
      getLocalizeConfig param = (r, none) →
      lib.Localize
        (getLocalizerByLng i (handler i.currentContext i.defaultLanguage.String)) r
          = .ret (m, some e) →
      (GetMessage lib i param).result = .ret ("", some e) ∧
      MustGetMessage lib i param = .ret "") := by
  refine ⟨?_, ?_, ?_, ?_⟩
  · intro m h
    simp [MustGetMessage, h]
  · intro m e h
    have hm := GetMessage_error_empty lib i param m e h
    simp [MustGetMessage, h, hm]
  · intro handler v hh hp
    subst hp
    simp [MustGetMessage, GetMessage, GetMessage.lng, hh, getLocalizeConfig]
  · intro handler r m e hh hg hloc
    simp [MustGetMessage, GetMessage, GetMessage.lng, hh, hg, hloc]

/-- Witness of C8: on the concrete service, German finds the message and the
convenience form returns it; a message looked up in a language whose catalog
was not loaded is reported as not found, and the convenience form returns
the empty string. -/
theorem MustGetMessage_collapses_witness :
    MustGetMessage exLib { exInit with currentContext := some (exCtx "de") } (.str "hello")
      = .ret "de:hello" ∧
    MustGetMessage exLib { exInit with currentContext := some (exCtx "en") } (.str "hello")
      = .ret "" :=
  ⟨(MustGetMessage_collapses exLib { exInit with currentContext := some (exCtx "de") }
      (.str "hello")).1 "de:hello" (by decide),
   (MustGetMessage_collapses exLib { exInit with currentContext := some (exCtx "en") }
      (.str "hello")).2.1 "" "message not found: hello" (by decide)⟩

/-! ## C6: fallback to the default language -/

/-- C6: on any service state (so on every initialized one), a lookup whose extracted
language is not a key of the resolver cache returns the same outcome, and
makes the same `Localize` calls, as a lookup whose extracted language is the
default language. -/
theorem GetMessage_unknown_language_as_default (lib : Lib) (i : GinI18nImpl)
    (h1 h2 : GetLngHandler) (c1 c2 : Ptr GinContext) (param : Param)
    (hunknown : i.localizerByLng.lookup (h1 c1 i.defaultLanguage.String) = none)
    (hdefault : h2 c2 i.defaultLanguage.String = i.defaultLanguage.String) :
    GetMessage lib { i with getLngHandler := some h1, currentContext := c1 } param =
      GetMessage lib { i with getLngHandler := some h2, currentContext := c2 } param := by
  have hloc : getLocalizerByLng { i with getLngHandler := some h1, currentContext := c1 }
        (h1 c1 i.defaultLanguage.String) =
      getLocalizerByLng { i with getLngHandler := some h2, currentContext := c2 }
        (h2 c2 i.defaultLanguage.String) := by
    rw [hdefault]
    simp only [getLocalizerByLng, hunknown, GoMap.index]
    cases hd : i.localizerByLng.lookup i.defaultLanguage.String with
    | none => rfl
    | some v => rfl
  simp only [GetMessage, GetMessage.lng, hloc]

/-- Witness of C6 on the initialized concrete service: a request asking for `xx`, which
is not cached, and a request without language preference, which extracts the
default. -/
theorem GetMessage_unknown_language_as_default_witness :
    exInit.localizerByLng.lookup (exHandler (some (exCtx "xx")) exInit.defaultLanguage.String)
      = none ∧
    exHandler none exInit.defaultLanguage.String = exInit.defaultLanguage.String ∧
    GetMessage exLib
        { exInit with getLngHandler := some exHandler, currentContext := some (exCtx "xx") }
        (.str "hello") =
      GetMessage exLib { exInit with getLngHandler := some exHandler, currentContext := none }
        (.str "hello") :=
  ⟨rfl, rfl,
   GetMessage_unknown_language_as_default exLib exInit exHandler exHandler (some (exCtx "xx"))
     none (.str "hello") rfl rfl⟩

/-! ## C9: binding a request context -/

/-- C9, as stated, fails: `SetCurrentContext` changes the field `currentContext` of the
service, and a context bound by another request before the lookup runs
changes the language the lookup resolves with (German was bound for the
request, French is resolved). -/
theorem SetCurrentContext_mutates :
    ∃ jA jB : GinI18nImpl,
      SetCurrentContext exInit (.gin (some (exCtx "de"))) = .ret jA ∧
      jA.currentContext ≠ exInit.currentContext ∧
      GetMessage.lng jA = .ret "de" ∧
      SetCurrentContext jA (.gin (some (exCtx "fr"))) = .ret jB ∧
      GetMessage.lng jB = .ret "fr" :=
  ⟨_, _, rfl, by decide, by decide, rfl, by decide⟩

/-- C9, amended: `SetCurrentContext` overwrites the field `currentContext` with the bound
context and leaves the four other fields unchanged; the state it leaves, and
so the language the next lookup resolves with, is determined by the context
bound last, whatever context was bound before. -/
theorem SetCurrentContext_last_wins (i : GinI18nImpl) (p q : Ptr GinContext)
    (handler : GetLngHandler) (hh : i.getLngHandler = some handler) :
    SetCurrentContext i (.gin p) = .ret { i with currentContext := p } ∧
    (∀ j : GinI18nImpl, SetCurrentContext i (.gin q) = .ret j →
      j.bundle = i.bundle ∧ j.localizerByLng = i.localizerByLng ∧
      j.defaultLanguage = i.defaultLanguage ∧ j.getLngHandler = i.getLngHandler ∧
      j.currentContext = q ∧
      SetCurrentContext j (.gin p) = SetCurrentContext i (.gin p)) ∧
    GetMessage.lng { i with currentContext := p } =
      .ret (handler p i.defaultLanguage.String) := by
  refine ⟨rfl, ?_, ?_⟩
  · intro j hj
    simp only [SetCurrentContext, Outcome.ret.injEq] at hj
    subst hj
    exact ⟨rfl, rfl, rfl, rfl, rfl, rfl⟩
  · simp [GetMessage.lng, hh]

/-- Witness of C9 amended on the concrete service. -/
theorem SetCurrentContext_last_wins_witness :
    exInit.getLngHandler = some exHandler ∧
    GetMessage.lng { exInit with currentContext := some (exCtx "fr") } =
      .ret (exHandler (some (exCtx "fr")) exInit.defaultLanguage.String) :=
  ⟨rfl, (SetCurrentContext_last_wins exInit (some (exCtx "fr")) (some (exCtx "de")) exHandler
    rfl).2.2⟩

/-! ## C7: catalog loading aborts at the first failure -/

theorem bundleWith_nil (lib : Lib) (config : BundleCfg) (b : Bundle) :
    bundleWith lib config b [] = b := by
  cases b
  simp [bundleWith]

theorem bundleWith_cons (lib : Lib) (config : BundleCfg) (b : Bundle) (a : Tag)
    (rest : List Tag) :
    bundleWith lib config (bundleWith lib config b [a]) rest = bundleWith lib config b (a :: rest) := by
  simp [bundleWith, List.append_assoc]

theorem AllLoad_cons (lib : Lib) (config : BundleCfg) (b : Bundle) (a : Tag) (rest : List Tag) :
    AllLoad lib config b (a :: rest) ↔
      catalogError lib config b a = none ∧ AllLoad lib config (bundleWith lib config b [a]) rest := by
  constructor
  · intro h
    constructor
    · have := h [] a rest rfl
      rwa [bundleWith_nil] at this
    · intro p1 l p2 hsplit
      rw [bundleWith_cons]
      exact h (a :: p1) l p2 (by rw [hsplit]; rfl)
  · rintro ⟨h1, h2⟩ p1 l p2 hsplit
    cases p1 with
    | nil =>
      simp only [List.nil_append, List.cons.injEq] at hsplit
      rw [bundleWith_nil, ← hsplit.1]
      exact h1
    | cons x p1 =>
      simp only [List.cons_append, List.cons.injEq] at hsplit
      rw [← hsplit.1, ← bundleWith_cons]
      exact h2 p1 l p2 hsplit.2

theorem FirstFailure_cons (lib : Lib) (config : BundleCfg) (b : Bundle) (a : Tag)
    (rest pre : List Tag) (lng : Tag) (post : List Tag) (e : Err)
    (ha : catalogError lib config b a = none)
    (h : FirstFailure lib config (bundleWith lib config b [a]) rest pre lng post e) :
    FirstFailure lib config b (a :: rest) (a :: pre) lng post e := by
  obtain ⟨h1, h2, h3⟩ := h
  refine ⟨by rw [h1]; rfl, (AllLoad_cons lib config b a pre).2 ⟨ha, h2⟩, ?_⟩
  rw [← bundleWith_cons]
  exact h3

/-- Either every language loads, or there is a first one that fails. -/
theorem AllLoad_or_FirstFailure (lib : Lib) (config : BundleCfg) (b : Bundle) (lngs : List Tag) :
    AllLoad lib config b lngs ∨
      ∃ pre lng post e, FirstFailure lib config b lngs pre lng post e := by
  induction lngs generalizing b with
  | nil =>
    left
    intro p1 l p2 h
    simp at h
  | cons a rest ih =>
    cases ha : catalogError lib config b a with
    | some e =>
      right
      refine ⟨[], a, rest, e, rfl, ?_, ?_⟩
      · intro p1 l p2 h
        simp at h
      · rw [bundleWith_nil]
        exact ha
    | none =>
      rcases ih (bundleWith lib config b [a]) with h | ⟨pre, lng, post, e, h⟩
      · left
        exact (AllLoad_cons lib config b a rest).2 ⟨ha, h⟩
      · right
        exact ⟨a :: pre, lng, post, e, FirstFailure_cons lib config b a rest pre lng post e ha h⟩

theorem loadMessageFile_ok (lib : Lib) (config : BundleCfg) (i : GinI18nImpl) (b : Bundle)
    (lng : Tag) (hb : i.bundle = some b) (h : catalogError lib config b lng = none) :
    loadMessageFile lib i config (loadMessageFiles.path lib config lng) =
      ⟨{ i with bundle := some (bundleWith lib config b [lng]) },
        [loadMessageFiles.path lib config lng], .ret none⟩ := by
  unfold catalogError at h
  unfold loadMessageFile
  rcases hl : config.Loader (loadMessageFiles.path lib config lng) with ⟨buf, le⟩
  rw [hl] at h
  cases le with
  | some err => simp at h
  | none =>
    simp only at h
    simp [hb, Bundle.ParseMessageFileBytes, h, bundleWith, hl]

theorem loadMessageFile_err (lib : Lib) (config : BundleCfg) (i : GinI18nImpl) (b : Bundle)
    (lng : Tag) (e : Err) (hb : i.bundle = some b)
    (h : catalogError lib config b lng = some e) :
    loadMessageFile lib i config (loadMessageFiles.path lib config lng) =
      ⟨i, [loadMessageFiles.path lib config lng], .ret (some e)⟩ := by
  unfold catalogError at h
  unfold loadMessageFile
  rcases hl : config.Loader (loadMessageFiles.path lib config lng) with ⟨buf, le⟩
  rw [hl] at h
  cases le with
  | some err =>
    simp only [Option.some.injEq] at h
    simp [h]
  | none =>
    simp only at h
    cases i
    simp only at hb
    subst hb
    simp [Bundle.ParseMessageFileBytes, h]

theorem loadMessageFiles.loop_allLoad (lib : Lib) (config : BundleCfg) (lngs : List Tag)
    (i : GinI18nImpl) (b : Bundle) (requested : List String) (hb : i.bundle = some b)
    (h : AllLoad lib config b lngs) :
    loadMessageFiles.loop lib config lngs i requested =
      ⟨{ i with bundle := some (bundleWith lib config b lngs) },
        requested ++ lngs.map (loadMessageFiles.path lib config), none⟩ := by
  induction lngs generalizing i b requested with
  | nil =>
    cases i
    simp only at hb
    subst hb
    simp [loadMessageFiles.loop, bundleWith_nil]
  | cons a rest ih =>
    obtain ⟨ha, hrest⟩ := (AllLoad_cons lib config b a rest).1 h
    unfold loadMessageFiles.loop
    simp only [loadMessageFile_ok lib config i b a hb ha]
    rw [ih _ (bundleWith lib config b [a]) _ rfl hrest, bundleWith_cons]
    simp

theorem loadMessageFiles.loop_firstFailure (lib : Lib) (config : BundleCfg) (pre : List Tag)
    (lngs : List Tag) (lng : Tag) (post : List Tag) (e : Err)
    (i : GinI18nImpl) (b : Bundle) (requested : List String) (hb : i.bundle = some b)
    (h : FirstFailure lib config b lngs pre lng post e) :
    loadMessageFiles.loop lib config lngs i requested =
      ⟨{ i with bundle := some (bundleWith lib config b pre) },
        requested ++ (pre ++ [lng]).map (loadMessageFiles.path lib config), some e⟩ := by
  induction pre generalizing lngs i b requested with
  | nil =>
    obtain ⟨h1, _, h3⟩ := h
    rw [bundleWith_nil] at h3
    subst h1
    simp only [List.nil_append]
    unfold loadMessageFiles.loop
    simp only [loadMessageFile_err lib config i b lng e hb h3]
    cases i
    simp only at hb
    subst hb
    simp [bundleWith_nil]
  | cons a pre ih =>
    obtain ⟨h1, h2, h3⟩ := h
    obtain ⟨ha, hpre⟩ := (AllLoad_cons lib config b a pre).1 h2
    subst h1
    simp only [List.cons_append]
    unfold loadMessageFiles.loop
    simp only [loadMessageFile_ok lib config i b a hb ha]
    rw [ih (pre ++ lng :: post) _ (bundleWith lib config b [a]) _ rfl
      ⟨rfl, hpre, by rw [bundleWith_cons]; exact h3⟩, bundleWith_cons]
    simp

theorem AllLoad_nil (lib : Lib) (config : BundleCfg) (b : Bundle) : AllLoad lib config b [] := by
  intro p1 l p2 h
  simp at h

theorem SetBundle_eq (lib : Lib) (i : GinI18nImpl) (cfg : BundleCfg) :
    SetBundle lib i (some cfg) =
      (match (loadMessageFiles.loop lib cfg cfg.AcceptLanguage
          { i with bundle := some (SetBundle.bundle cfg), defaultLanguage := cfg.DefaultLanguage }
          []).panicked with
      | some e =>
        ⟨(loadMessageFiles.loop lib cfg cfg.AcceptLanguage
          { i with bundle := some (SetBundle.bundle cfg), defaultLanguage := cfg.DefaultLanguage }
          []).svc,
         (loadMessageFiles.loop lib cfg cfg.AcceptLanguage
          { i with bundle := some (SetBundle.bundle cfg), defaultLanguage := cfg.DefaultLanguage }
          []).requested, some e⟩
      | none =>
        ⟨setLocalizerByLng (loadMessageFiles.loop lib cfg cfg.AcceptLanguage
          { i with bundle := some (SetBundle.bundle cfg), defaultLanguage := cfg.DefaultLanguage }
          []).svc cfg.AcceptLanguage,
         (loadMessageFiles.loop lib cfg cfg.AcceptLanguage
          { i with bundle := some (SetBundle.bundle cfg), defaultLanguage := cfg.DefaultLanguage }
          []).requested, none⟩) := rfl

theorem SetBundle_of_FirstFailure (lib : Lib) (i : GinI18nImpl) (cfg : BundleCfg)
    (pre : List Tag) (lng : Tag) (post : List Tag) (e : Err)
    (h : FirstFailure lib cfg (SetBundle.bundle cfg) cfg.AcceptLanguage pre lng post e) :
    SetBundle lib i (some cfg) =
      ⟨{ i with bundle := some (bundleWith lib cfg (SetBundle.bundle cfg) pre),
                defaultLanguage := cfg.DefaultLanguage },
        (pre ++ [lng]).map (loadMessageFiles.path lib cfg), some e⟩ := by
  rw [SetBundle_eq, loadMessageFiles.loop_firstFailure lib cfg pre cfg.AcceptLanguage lng post e
    _ (SetBundle.bundle cfg) [] rfl h]
  simp

theorem SetBundle_of_AllLoad (lib : Lib) (i : GinI18nImpl) (cfg : BundleCfg)
    (h : AllLoad lib cfg (SetBundle.bundle cfg) cfg.AcceptLanguage) :
    SetBundle lib i (some cfg) =
      ⟨setLocalizerByLng
          { i with bundle := some (bundleWith lib cfg (SetBundle.bundle cfg) cfg.AcceptLanguage),
                   defaultLanguage := cfg.DefaultLanguage } cfg.AcceptLanguage,
        cfg.AcceptLanguage.map (loadMessageFiles.path lib cfg), none⟩ := by
  rw [SetBundle_eq, loadMessageFiles.loop_allLoad lib cfg cfg.AcceptLanguage
    _ (SetBundle.bundle cfg) [] rfl h]
  simp

/-- C7: `SetBundle` panics with error `e` exactly when some accepted language is the first
one, in `AcceptLanguage` order, whose catalog the loader cannot read or whose
bytes fail to parse, `e` being that error; the loader has then been asked for
the catalogs up to that language and for no later one, and the resolver
cache is as it was before; when every accepted language loads and parses (and
only then) `SetBundle` completes, having asked for every catalog and built the
cache. -/
theorem SetBundle_fails_iff_first_failure (lib : Lib) (i : GinI18nImpl) (cfg : BundleCfg) :
    (∀ e : Err, (SetBundle lib i (some cfg)).panicked = some e ↔
      ∃ pre lng post,
        FirstFailure lib cfg (SetBundle.bundle cfg) cfg.AcceptLanguage pre lng post e) ∧
    (∀ pre lng post e,
      FirstFailure lib cfg (SetBundle.bundle cfg) cfg.AcceptLanguage pre lng post e →
        (SetBundle lib i (some cfg)).requested =
          (pre ++ [lng]).map (loadMessageFiles.path lib cfg) ∧
        (SetBundle lib i (some cfg)).svc.localizerByLng = i.localizerByLng) ∧
    ((SetBundle lib i (some cfg)).panicked = none ↔
      AllLoad lib cfg (SetBundle.bundle cfg) cfg.AcceptLanguage) ∧
    (AllLoad lib cfg (SetBundle.bundle cfg) cfg.AcceptLanguage →
      (SetBundle lib i (some cfg)).requested =
        cfg.AcceptLanguage.map (loadMessageFiles.path lib cfg) ∧
      (SetBundle lib i (some cfg)).svc =
        setLocalizerByLng
          { i with bundle := some (bundleWith lib cfg (SetBundle.bundle cfg) cfg.AcceptLanguage),
                   defaultLanguage := cfg.DefaultLanguage } cfg.AcceptLanguage) := by
  refine ⟨fun e => ⟨fun hp => ?_, fun hf => ?_⟩, fun pre lng post e hf => ?_,
    ⟨fun hp => ?_, fun ha => ?_⟩, fun ha => ?_⟩
  · rcases AllLoad_or_FirstFailure lib cfg (SetBundle.bundle cfg) cfg.AcceptLanguage with
      ha | ⟨pre, lng, post, e1, hf⟩
    · rw [SetBundle_of_AllLoad lib i cfg ha] at hp
      simp at hp
    · rw [SetBundle_of_FirstFailure lib i cfg pre lng post e1 hf] at hp
      simp only [Option.some.injEq] at hp
      subst hp
      exact ⟨pre, lng, post, hf⟩
  · obtain ⟨pre, lng, post, hf⟩ := hf
    rw [SetBundle_of_FirstFailure lib i cfg pre lng post e hf]
  · rw [SetBundle_of_FirstFailure lib i cfg pre lng post e hf]
    exact ⟨rfl, rfl⟩
  · rcases AllLoad_or_FirstFailure lib cfg (SetBundle.bundle cfg) cfg.AcceptLanguage with
      ha | ⟨pre, lng, post, e1, hf⟩
    · exact ha
    · rw [SetBundle_of_FirstFailure lib i cfg pre lng post e1 hf] at hp
      simp at hp
  · rw [SetBundle_of_AllLoad lib i cfg ha]
  · rw [SetBundle_of_AllLoad lib i cfg ha]
    exact ⟨rfl, rfl⟩

/-- The French catalog is the first failure of the configuration accepting German,
French and English. -/
theorem exCfgFr_firstFailure :
    FirstFailure exLib exCfgFr (SetBundle.bundle exCfgFr) exCfgFr.AcceptLanguage
      [⟨"de"⟩] ⟨"fr"⟩ [⟨"en"⟩] "parse error" :=
  ⟨rfl, (AllLoad_cons exLib exCfgFr _ _ _).2 ⟨rfl, AllLoad_nil _ _ _⟩, rfl⟩

/-- Witness of C7: with German, French and English accepted and an unparsable French
catalog, `SetBundle` panics with the parse error, after asking for the German
and French catalogs only, and builds no cache. -/
theorem SetBundle_fails_iff_first_failure_witness :
    (SetBundle exLib exSvc (some exCfgFr)).panicked = some "parse error" ∧
    (SetBundle exLib exSvc (some exCfgFr)).requested = ["locales/de.yaml", "locales/fr.yaml"] ∧
    (SetBundle exLib exSvc (some exCfgFr)).svc.localizerByLng = exSvc.localizerByLng :=
  ⟨((SetBundle_fails_iff_first_failure exLib exSvc exCfgFr).1 "parse error").2
      ⟨_, _, _, exCfgFr_firstFailure⟩,
   ((SetBundle_fails_iff_first_failure exLib exSvc exCfgFr).2.1 _ _ _ _
      exCfgFr_firstFailure).1,
   ((SetBundle_fails_iff_first_failure exLib exSvc exCfgFr).2.1 _ _ _ _
      exCfgFr_firstFailure).2⟩

/-! ## C4: the catalog of the default language -/

/-- C4 on the configuration accepting German only, with English as default: `SetBundle`
completes having asked the loader for the German catalog alone; the path of
the default language's catalog is not requested, although the cache holds a
resolver for the default language, and that resolver finds no message. -/
theorem SetBundle_skips_default_catalog :
    (SetBundle exLib exSvc (some exCfg)).panicked = none ∧
    (SetBundle exLib exSvc (some exCfg)).requested = ["locales/de.yaml"] ∧
    loadMessageFiles.path exLib exCfg exCfg.DefaultLanguage = "locales/en.yaml" ∧
    loadMessageFiles.path exLib exCfg exCfg.DefaultLanguage ∉
      (SetBundle exLib exSvc (some exCfg)).requested ∧
    (SetBundle exLib exSvc (some exCfg)).svc.localizerByLng.keys = ["de", "en"] ∧
    (GetMessage exLib
      { (SetBundle exLib exSvc (some exCfg)).svc with currentContext := some (exCtx "en") }
      (.str "hello")).result = .ret ("", some "message not found: hello") := by
  refine ⟨rfl, rfl, rfl, ?_, rfl, rfl⟩
  decide

end I18n
